import Mathlib

/-!
Verification of the spotapi repository's natural-language specification
against its source code, via a shallow embedding in Lean 4.

Each definition below embeds one Python function or data shape of the
repository (file and symbol are named in the doc comment).  Machine-level
effects (HTTP transport, threads, sleeping) are represented by explicit
oracles and traces; exceptions are represented by Except / Option results.
-/

/-! ## JSON values (shape of parsed JSON bodies handled by the code) -/

/-- Model of a parsed JSON value as produced by json.loads in Python.
Python maps JSON null to None, objects to dict, strings to str, etc. -/
inductive JVal where
  | null
  | bool (b : Bool)
  | num (n : Int)
  | str (s : String)
  | arr (elems : List JVal)
  | obj (fields : List (String × JVal))

/-- Model of a Python dict produced from a JSON object: association list,
first binding wins (dict keys are unique, so lookup order is irrelevant). -/
abbrev JMap := List (String × JVal)

/-- Embeds Python dict.get(key): returns None when the key is absent. -/
def jmGet : JMap → String → Option JVal
  | [], _ => none
  | (k, v) :: rest, key => if k == key then some v else jmGet rest key

/-- Python truthiness of a JSON-derived value (bool(v)): None, False, 0,
empty string, empty list and empty dict are falsy. -/
def JVal.truthy : JVal → Bool
  | .null => false
  | .bool b => b
  | .num n => n != 0
  | .str s => s != ""
  | .arr elems => !elems.isEmpty
  | .obj fields => !fields.isEmpty

/-- Tests whether an optional JSON value is a string equal to s
(Python v == "s" is False for absent values and non-string values). -/
def isStrVal (v : Option JVal) (s : String) : Bool :=
  match v with
  | some (.str t) => t == s
  | _ => false

/-! ## spotapi/login.py : Login.handle_login_error (claim C1) -/

/-- Outcome of Login.handle_login_error (spotapi/login.py lines 294-326).
Each error constructor corresponds to one distinct raise site of LoginError;
errUnexpectedFormat carries the dump interpolated into the message
"Unexpected response format: ..."; errUnforeseen carries the unrecognized
error value interpolated into "Unforeseen Error". -/
inductive LoginOutcome where
  | ok
  | challengeRun
  | errUnexpectedFormat (dump : JMap)
  | errUnknownRetry
  | errInvalidCredentials
  | errUnforeseen (errorValue : JVal)

/-- True exactly for the outcomes that raise LoginError. -/
def LoginOutcome.isLoginError : LoginOutcome → Bool
  | .ok => false
  | .challengeRun => false
  | _ => true

/-- Embeds Login.handle_login_error (spotapi/login.py lines 294-326):
dispatch on result ("ok" returns; "redirect_required" runs the
LoginChallenge sub-flow), then on the "error" key (absent key raises
"Unexpected response format"; then a match on the error code). -/
def Login.handle_login_error (json_data : JMap) : LoginOutcome :=
  if isStrVal (jmGet json_data "result") "ok" then .ok
  else if isStrVal (jmGet json_data "result") "redirect_required" then .challengeRun
  else
    match jmGet json_data "error" with
    | none => .errUnexpectedFormat json_data
    | some v =>
      if isStrVal (some v) "errorUnknown" then .errUnknownRetry
      else if isStrVal (some v) "errorInvalidCredentials" then .errInvalidCredentials
      else .errUnforeseen v

/-- The "result" field is neither "ok" nor "redirect_required" (the
fall-through condition of the dispatch in handle_login_error). -/
def resultNotOkNorRedirect (json_data : JMap) : Prop :=
  isStrVal (jmGet json_data "result") "ok" = false ∧
  isStrVal (jmGet json_data "result") "redirect_required" = false

/-! ## spotapi/login.py : Login.save / Login.from_cookies (claim C2) -/

/-- The part of the Login object state relevant to session persistence:
identifier_credentials, password, the _authorized flag behind the
logged_in property, and the client cookie jar (spotapi/login.py). -/
structure LoginSession where
  identifier_credentials : String
  password : String
  authorized : Bool
  cookies : List (String × String)
deriving DecidableEq

/-- Embeds cookie-jar set(key, value): replaces the value of an existing
cookie with that name in place, otherwise appends a new cookie. -/
def cookiesSet (jar : List (String × String)) (k v : String) : List (String × String) :=
  if jar.any (fun p => p.1 == k) then
    jar.map (fun p => if p.1 == k then (k, v) else p)
  else jar ++ [(k, v)]

/-- Embeds cookie-jar get_dict(): folds the cookies into a dict, later
cookies with the same name overriding the stored value. -/
def getDict (jar : List (String × String)) : List (String × String) :=
  jar.foldl (fun acc p => cookiesSet acc p.1 p.2) []

/-- Shape of the "cookies" entry of a session dump: absent, a raw
"k=v; k2=v2" header string, or a mapping. -/
inductive CookiesField where
  | absent
  | str (s : String)
  | map (entries : List (String × String))
deriving DecidableEq

/-- A session dump as consumed by Login.from_cookies: the mapping with
optional "identifier", "password" and "cookies" entries. -/
structure SessionDump where
  identifier : Option String
  password : Option String
  cookies : CookiesField
deriving DecidableEq

/-- Embeds the cookie-string branch of Login.from_cookies
(spotapi/login.py lines 137-143): strip spaces, split on ";", and for each
piece containing "=" split at the first "=" into key and value. -/
def parseCookieHeader (s : String) : List (String × String) :=
  (((s.replace " " "").splitOn ";").foldl
    (fun acc cookie =>
      match cookie.splitOn "=" with
      | k :: v0 :: vrest => cookiesSet acc k (String.intercalate "=" (v0 :: vrest))
      | _ => acc)
    [])

/-- Embeds Login.save (spotapi/login.py lines 95-116): refuses to save a
session that is not logged in, otherwise dumps identifier, password and
the cookie-jar dict. -/
def Login.save (l : LoginSession) : Except String SessionDump :=
  if ¬ l.authorized then .error "Cannot save session if it is not logged in"
  else
    .ok { identifier := some l.identifier_credentials,
          password := some l.password,
          cookies := .map (getDict l.cookies) }

/-- Embeds Login.from_cookies (spotapi/login.py lines 118-156).
cfgJar is the configured client's cookie jar before the call (it is
cleared before the dump cookies are set); netTrace is the log of HTTP
requests issued so far, returned unchanged because the restore path makes
no network call.  Truthiness check: the call raises ValueError unless the
identifier is a truthy value and the cookies entry is a mapping. -/
def Login.from_cookies (dump : SessionDump) (cfgJar : List (String × String))
    (netTrace : List String) : Except String (LoginSession × List String) :=
  let password := dump.password.getD ""
  let cred := dump.identifier
  let cookies := match dump.cookies with
    | .str s => CookiesField.map (parseCookieHeader s)
    | c => c
  match cred, cookies with
  | some c, .map m =>
    if c = "" then .error "Invalid dump format: must contain identifier and cookies"
    else
      let jar := m.foldl (fun acc p => cookiesSet acc p.1 p.2) []
      .ok ({ identifier_credentials := c, password := password,
             authorized := true, cookies := jar }, netTrace)
  | _, _ => .error "Invalid dump format: must contain identifier and cookies"

/-! ## Captcha solver adapters (claim C3) -/

/-- One getTaskResult poll outcome as the adapters observe it: an HTTP
transport failure, or a vendor JSON body with errorId, an error code /
description string, a status, and the optional solution object's
gRecaptchaResponse field. -/
inductive PollResp where
  | httpFail (err : String)
  | vendor (errorId : Int) (errorCode : String) (status : String) (solution : Option String)

/-- A createTask call outcome: HTTP transport failure or vendor JSON body
with errorId, error code / description, and the created taskId. -/
inductive CreateResp where
  | httpFail (err : String)
  | vendor (errorId : Int) (errorCode : String) (taskId : String)

/-- Outcome of a solver run.  captchaException and solverError correspond
to the two distinct exception types CaptchaException and SolverError;
keyError models Python's KeyError when a "ready" poll carries no solution. -/
inductive HarvestOutcome where
  | solution (token : String)
  | captchaException (err : String)
  | solverError (err : String)
  | keyError
deriving DecidableEq

/-- Embeds the polling loop shared by Capmonster._harvest_task
(spotapi/solvers/capmonster.py lines 152-188) and Capsolver._harvest_task
(spotapi/spotapi_solvers/capsolver.py lines 110-133): for each of the
remaining attempts, poll; HTTP failure or non-zero errorId raises
CaptchaException; status "ready" returns the solution; otherwise sleep 1s
and poll again; an exhausted budget raises SolverError.  polls i is the
vendor response to the i-th poll; the second component of the result is
the number of polls performed. -/
def harvestLoop (polls : Nat → PollResp) : Nat → Nat → HarvestOutcome × Nat
  | i, 0 => (.solverError "Max retries reached", i)
  | i, fuel + 1 =>
    match polls i with
    | .httpFail e => (.captchaException e, i + 1)
    | .vendor errorId errorCode status solution =>
      if errorId ≠ 0 then (.captchaException errorCode, i + 1)
      else if status = "ready" then
        match solution with
        | some token => (.solution token, i + 1)
        | none => (.keyError, i + 1)
      else harvestLoop polls (i + 1) fuel

/-- Embeds Capmonster._harvest_task (spotapi/solvers/capmonster.py lines
152-188): poll from attempt 0 with the configured retry budget. -/
def Capmonster.harvest_task (polls : Nat → PollResp) (retries : Nat) : HarvestOutcome × Nat :=
  harvestLoop polls 0 retries

/-- Embeds Capsolver._harvest_task (spotapi/spotapi_solvers/capsolver.py
lines 110-133); its control flow is identical to Capmonster's, only the
vendor error field name differs (errorDescription instead of errorCode). -/
def Capsolver.harvest_task (polls : Nat → PollResp) (retries : Nat) : HarvestOutcome × Nat :=
  harvestLoop polls 0 retries

/-- Embeds Capmonster._create_task's result handling
(spotapi/solvers/capmonster.py lines 99-150): HTTP failure or non-zero
errorId raises CaptchaException, otherwise the taskId is returned. -/
def Capmonster.create_task (resp : CreateResp) : Except (HarvestOutcome × Nat) String :=
  match resp with
  | .httpFail e => .error (.captchaException e, 0)
  | .vendor errorId errorCode taskId =>
    if errorId ≠ 0 then .error (.captchaException errorCode, 0)
    else .ok taskId

/-- Embeds Capsolver._create_task's result handling
(spotapi/spotapi_solvers/capsolver.py lines 68-108), identical control
flow to Capmonster's. -/
def Capsolver.create_task (resp : CreateResp) : Except (HarvestOutcome × Nat) String :=
  match resp with
  | .httpFail e => .error (.captchaException e, 0)
  | .vendor errorId errorCode taskId =>
    if errorId ≠ 0 then .error (.captchaException errorCode, 0)
    else .ok taskId

/-- Embeds Capmonster.solve_captcha (spotapi/solvers/capmonster.py lines
190-213): create the task, then harvest it with the configured retries.
The poll count is 0 when createTask already fails. -/
def Capmonster.solve_captcha (create : CreateResp) (polls : Nat → PollResp)
    (retries : Nat) : HarvestOutcome × Nat :=
  match Capmonster.create_task create with
  | .error out => out
  | .ok _ => Capmonster.harvest_task polls retries

/-- Embeds Capsolver.solve_captcha (spotapi/spotapi_solvers/capsolver.py
lines 135-143). -/
def Capsolver.solve_captcha (create : CreateResp) (polls : Nat → PollResp)
    (retries : Nat) : HarvestOutcome × Nat :=
  match Capsolver.create_task create with
  | .error out => out
  | .ok _ => Capsolver.harvest_task polls retries

/-- A poll response that keeps the loop going: vendor errorId 0 and a
status different from "ready". -/
def pollPending : PollResp → Prop
  | .vendor errorId _ status _ => errorId = 0 ∧ status ≠ "ready"
  | .httpFail _ => False

/-! ## Python-style string scanning (claims C4, C7) -/

/-- Embeds Python str.find(pat): index of the first occurrence of pat, or
None (Python returns -1) when there is no occurrence. -/
def strFind (pat : List Char) : List Char → Option Nat
  | [] => if pat.isEmpty then some 0 else none
  | x :: xs => if pat.isPrefixOf (x :: xs) then some 0 else (strFind pat xs).map (· + 1)

/-- Fueled worker for splitOnSeq; the fuel is always at least the length
of the remaining text, so the guard arm is never reached. -/
def splitOnSeqAux (pat : List Char) : Nat → List Char → List (List Char)
  | _, [] => [[]]
  | 0, l => [l]
  | fuel + 1, x :: xs =>
    if pat.isPrefixOf (x :: xs) ∧ pat ≠ [] then
      [] :: splitOnSeqAux pat fuel (xs.drop (pat.length - 1))
    else
      match splitOnSeqAux pat fuel xs with
      | [] => [[x]]
      | h :: t => (x :: h) :: t

/-- Embeds Python str.split(pat) for a non-empty separator: cut the text
at every non-overlapping occurrence of pat, scanning left to right. -/
def splitOnSeq (pat hay : List Char) : List (List Char) :=
  splitOnSeqAux pat hay.length hay

/-! ## spotapi/spotapi_utils/strings.py : parse_json_string (claim C7) -/

/-- Embeds parse_json_string (spotapi/spotapi_utils/strings.py lines
57-79): find the marker s followed by the three characters quote, colon,
quote; raise ValueError when absent; then find the next double quote after
the marker and raise ValueError when absent; otherwise return the slice
strictly between them.  The Python error messages interpolate s; the model
keeps fixed message texts. -/
def parse_json_string (b s : List Char) : Except String (List Char) :=
  match strFind (s ++ ['\"', ':', '\"']) b with
  | none => .error "Substring not found in JSON string"
  | some start_index =>
    let value_start_index := start_index + s.length + 3
    match strFind ['\"'] (b.drop value_start_index) with
    | none => .error "Closing double quote not found"
    | some j => .ok ((b.drop value_start_index).take j)

/-! ## spotapi/login.py : LoginChallenge._construct_challenge_payload (claim C4) -/

/-- Embeds the URL-parsing core of LoginChallenge._construct_challenge_payload
(spotapi/login.py lines 447-448):
session_id is challenge_url.split("c/")[1].split("/")[0] and challenge_id
is challenge_url.split(session_id + "/")[1].split("/")[0]; a missing index
1 (Python IndexError) yields none. -/
def parsedIds (challenge_url : List Char) : Option (List Char × List Char) :=
  match (splitOnSeq ['c', '/'] challenge_url).get? 1 with
  | none => none
  | some seg1 =>
    let session_id := (splitOnSeq ['/'] seg1).headD []
    match (splitOnSeq (session_id ++ ['/']) challenge_url).get? 1 with
    | none => none
    | some seg2 => some (session_id, (splitOnSeq ['/'] seg2).headD [])

/-- Embeds the JSON body built by LoginChallenge._construct_challenge_payload
(spotapi/login.py lines 450-460) from the parsed ids and the solved
captcha token. -/
def challengePayloadJson (session_id challenge_id : List Char) (recaptcha_token : String) : JVal :=
  .obj [("session_id", .str (String.mk session_id)),
        ("challenge_id", .str (String.mk challenge_id)),
        ("recaptcha_challenge_v1",
          .obj [("solve", .obj [("recaptcha_token", .str recaptcha_token)])])]

/-- Embeds LoginChallenge._construct_challenge_payload (spotapi/login.py
lines 425-460) after a successful captcha solve: parse the two ids out of
the challenge URL and build the challenge-invocation JSON body. -/
def construct_challenge_payload (challenge_url : List Char) (captcha_response : String) :
    Option JVal :=
  match parsedIds challenge_url with
  | none => none
  | some (session_id, challenge_id) =>
    some (challengePayloadJson session_id challenge_id captcha_response)

/-! ## spotapi/websocket.py : WebsocketStreamer (claim C5) -/

/-- The Python exception kinds the websocket constructor can raise in the
init-packet path. -/
inductive PyExc where
  | valueError (msg : String)
  | attributeError (msg : String)
deriving DecidableEq

/-- The value headers = packet.get("headers") or PyDict() computed by
WebsocketStreamer.get_init_packet: an absent or falsy value is replaced by
the empty dict. -/
def resolvedHeaders (packet : JMap) : JVal :=
  match jmGet packet "headers" with
  | none => .obj []
  | some v => if v.truthy then v else .obj []

/-- Embeds WebsocketStreamer.get_init_packet (spotapi/websocket.py lines
179-195): read the first frame, resolve its headers, and return
headers.get("Spotify-Connection-Id"); a missing id (absent key, or JSON
null, which Python's dict.get also reports as None) raises
ValueError("Invalid init packet"); calling .get on a truthy non-dict
headers value raises AttributeError instead. -/
def WebsocketStreamer.get_init_packet (packet : JMap) : Except PyExc JVal :=
  match resolvedHeaders packet with
  | .obj entries =>
    match jmGet entries "Spotify-Connection-Id" with
    | none => .error (.valueError "Invalid init packet")
    | some .null => .error (.valueError "Invalid init packet")
    | some cid => .ok cid
  | _ => .error (.attributeError "get")

/-- The constructed channel state: the connection id extracted from the
init packet, and whether the keep-alive background thread was started. -/
structure WsChannel where
  connection_id : JVal
  keepAliveThreadStarted : Bool

/-- Embeds the init-packet portion of WebsocketStreamer constructor
(spotapi/websocket.py lines 41-79): after the login check and the
bootstrap/connect steps (whose success is assumed by taking the first
received frame as input), the constructor extracts the connection id via
get_init_packet and only then starts the keep-alive thread; any exception
in get_init_packet propagates out of the constructor before the thread
exists. -/
def WebsocketStreamer.construct (loggedIn : Bool) (firstFrame : JMap) : Except PyExc WsChannel :=
  if ¬ loggedIn then .error (.valueError "Must be logged in")
  else
    match WebsocketStreamer.get_init_packet firstFrame with
    | .error e => .error e
    | .ok cid => .ok { connection_id := cid, keepAliveThreadStarted := true }

/-- The first frame carries no usable connection id: every "headers" entry
that is a mapping maps "Spotify-Connection-Id" to nothing but null. -/
def lacksConnectionId (frame : JMap) : Prop :=
  ∀ entries v, jmGet frame "headers" = some (.obj entries) →
    jmGet entries "Spotify-Connection-Id" = some v → v = .null

/-! ## spotapi/status.py : EventManager subscription registry (claims C6, C9) -/

/-- The subscription registry self._subscriptions: an insertion-ordered
dict from event name to the ordered list of registered callables.
Callables are identified by Python object identity, modelled as Nat. -/
abbrev Registry := List (String × List Nat)

/-- Embeds Python dict lookup on the registry. -/
def dictGet : Registry → String → Option (List Nat)
  | [], _ => none
  | (k, v) :: rest, key => if k == key then some v else dictGet rest key

/-- Embeds Python dict assignment on the registry: overwrite in place, or
append a new key at the end. -/
def dictSet : Registry → String → List Nat → Registry
  | [], key, val => [(key, val)]
  | (k, v) :: rest, key, val =>
    if k == key then (key, val) :: rest else (k, v) :: dictSet rest key val

/-- The first statement of _subscribe_callable: create the event's entry
with an empty handler list when the event is not yet a key. -/
def ensureKey (subs : Registry) (event : String) : Registry :=
  match dictGet subs event with
  | none => dictSet subs event []
  | some _ => subs

/-- Embeds EventManager._subscribe_callable (spotapi/status.py lines
217-228): ensure the event key exists; append the callable when it is not
yet registered under this event, otherwise raise ValueError.  The Python
message interpolates the function name and event; the model keeps a fixed
text. -/
def EventManager.subscribe_callable (subs : Registry) (event : String) (func : Nat) :
    Except String Registry :=
  let subs1 := ensureKey subs event
  let handlers := (dictGet subs1 event).getD []
  if func ∈ handlers then .error "Function is already subscribed to event"
  else .ok (dictSet subs1 event (handlers ++ [func]))

/-- Embeds EventManager._emit (spotapi/status.py lines 251-262), observed
as the sequence of callables invoked: all handlers registered under the
event, in registration order; none when the event has no entry. -/
def EventManager.emit (subs : Registry) (event : String) : List Nat :=
  match dictGet subs event with
  | some handlers => handlers
  | none => []

/-- EventManager state for the decorator path: the registry plus the
identity supply for freshly created wrapper functions (each application of
the decorator returned by subscribe builds a new wrapped function object,
distinct from every callable seen before). -/
structure EMState where
  subs : Registry
  nextWrapperId : Nat

/-- All callables stored in the registry were created before nextWrapperId
(object identities are never reused). -/
def freshIds (st : EMState) : Prop :=
  ∀ e f, f ∈ (dictGet st.subs e).getD [] → f < st.nextWrapperId

/-- Embeds one application of the decorator returned by
EventManager.subscribe (spotapi/status.py lines 230-249): build a fresh
wrapper around the decorated function and register the wrapper via
_subscribe_callable; returns the new state and the wrapper's identity. -/
def EventManager.subscribe_decorator (st : EMState) (event : String) :
    Except String (EMState × Nat) :=
  match EventManager.subscribe_callable st.subs event st.nextWrapperId with
  | .ok subs2 => .ok ({ subs := subs2, nextWrapperId := st.nextWrapperId + 1 }, st.nextWrapperId)
  | .error e => .error e

/-- The successor state produced by one successful application of the
decorator returned by EventManager.subscribe: the fresh wrapper id is
appended to the event's handler list and the id supply advances. -/
def decorated (st : EMState) (event : String) : EMState :=
  { subs := dictSet (ensureKey st.subs event) event
      ((dictGet st.subs event).getD [] ++ [st.nextWrapperId]),
    nextWrapperId := st.nextWrapperId + 1 }

/-- Whether a registry operation succeeded (did not raise). -/
def registryOpOk : Except String Registry → Bool
  | .ok _ => true
  | .error _ => false

/-! ## spotapi/http/request.py : build_request retry loop (claim C8) -/

/-- One underlying transport attempt: a response (identified by a number)
or a raised transport exception with its message (requests' Exception for
StdClient, TLSClientExeption for TLSClient). -/
inductive AttemptResult where
  | ok (respId : Nat)
  | exc (msg : String)

/-- Outcome of build_request: the first successful response, or
RequestError("Failed to complete request.", error=last message) after the
budget is exhausted.  The second argument of each constructor counts the
attempts actually made. -/
inductive BuildOutcome where
  | response (respId : Nat) (attempts : Nat)
  | requestError (lastError : String) (attempts : Nat)
deriving DecidableEq

/-- Embeds the retry loop of StdClient.build_request / TLSClient.build_request
(spotapi/http/request.py lines 56-64 and 143-151): err starts as "Unknown";
each iteration returns the response on success or stores the exception
message and continues; an exhausted loop raises RequestError with the last
stored message. -/
def buildLoop (att : Nat → AttemptResult) : Nat → Nat → String → BuildOutcome
  | i, 0, err => .requestError err i
  | i, fuel + 1, err =>
    match att i with
    | .ok r => .response r (i + 1)
    | .exc e => buildLoop att (i + 1) fuel e

/-- Embeds StdClient.build_request for a client constructed with
auto_retries = n (spotapi/http/request.py lines 33-64): the constructor
stores auto_retries + 1 and the loop runs that many times. -/
def StdClient.build_request (att : Nat → AttemptResult) (auto_retries : Nat) : BuildOutcome :=
  buildLoop att 0 (auto_retries + 1) "Unknown"

/-- Embeds TLSClient.build_request for a client constructed with
auto_retries = n (spotapi/http/request.py lines 112-151); same loop,
catching TLSClientExeption. -/
def TLSClient.build_request (att : Nat → AttemptResult) (auto_retries : Nat) : BuildOutcome :=
  buildLoop att 0 (auto_retries + 1) "Unknown"

/-! ## spotapi/http/request.py : TLSClient.parse_response danger dispatch (claim C10) -/

/-- Application-layer exception classes storable in
TLSClient.fail_exception; Login.__init__ stores LoginError there. -/
inductive ExcClass where
  | loginError
  | baseClientError
deriving DecidableEq

/-- Embeds spotapi/login.py line 90 (self.client.fail_exception = LoginError):
the value Login's constructor stores into its client. -/
def Login.clientFailException : Option ExcClass := some ExcClass.loginError

/-- The body of a parsed response: raw text, or the dict parsed from a
JSON object body. -/
inductive Body where
  | text (s : String)
  | jsonDict (m : JMap)

/-- Python truthiness of a body value: empty text and the empty dict are
falsy. -/
def Body.truthy : Body → Bool
  | .text s => s != ""
  | .jsonDict m => !m.isEmpty

/-- The underlying tls_client response: status code and raw text. -/
structure TLSResp where
  status_code : Nat
  text : String

/-- Modelled from the spec: the Response dataclass of spotapi.http.data
(imported by spotapi/http/request.py but not present under src/).  Per the
spec, its fail flag reports a failing HTTP status code; failing is
modelled as status 400 or above. -/
structure Response where
  status_code : Nat
  response : Option Body

/-- Modelled from the spec: Response.fail is true exactly on a failing
status code. -/
def Response.fail (r : Response) : Bool := 400 ≤ r.status_code

/-- Embeds the body-normalization part of TLSClient.parse_response
(spotapi/http/request.py lines 153-178): decode the body as a JSON dict
when possible (jsonObjOf abstracts json decoding: some exactly when the
text parses to a JSON object), keep the raw text otherwise, and replace a
falsy body with None. -/
def mkParsedResponse (jsonObjOf : String → Option JMap) (resp : TLSResp) : Response :=
  let body0 : Body := match jsonObjOf resp.text with
    | some m => .jsonDict m
    | none => .text resp.text
  { status_code := resp.status_code,
    response := if body0.truthy then some body0 else none }

/-- Embeds the raise of TLSClient.parse_response (spotapi/http/request.py
lines 180-187): when danger is set, a fail_exception class is configured,
and the response has a failing status, raise that exception class (the
Python message interpolates the method and URL; the model carries the
class and the method); otherwise return the Response. -/
def TLSClient.parse_response (jsonObjOf : String → Option JMap)
    (fail_exception : Option ExcClass) (resp : TLSResp) (method : String)
    (danger : Bool) : Except (ExcClass × String) Response :=
  let r := mkParsedResponse jsonObjOf resp
  match danger, fail_exception with
  | true, some exc => if r.fail then .error (exc, method) else .ok r
  | _, _ => .ok r

/-- Embeds TLSClient.get (spotapi/http/request.py lines 189-199): GET
responses are always parsed with danger=True. -/
def TLSClient.get (jsonObjOf : String → Option JMap) (fail_exception : Option ExcClass)
    (resp : TLSResp) : Except (ExcClass × String) Response :=
  TLSClient.parse_response jsonObjOf fail_exception resp "GET" true

/-- Embeds TLSClient.post (spotapi/http/request.py lines 201-216): the
danger flag defaults to False and is passed through to parse_response. -/
def TLSClient.post (jsonObjOf : String → Option JMap) (fail_exception : Option ExcClass)
    (danger : Bool) (resp : TLSResp) : Except (ExcClass × String) Response :=
  TLSClient.parse_response jsonObjOf fail_exception resp "POST" danger

/-- Embeds TLSClient.put (spotapi/http/request.py lines 218-233). -/
def TLSClient.put (jsonObjOf : String → Option JMap) (fail_exception : Option ExcClass)
    (danger : Bool) (resp : TLSResp) : Except (ExcClass × String) Response :=
  TLSClient.parse_response jsonObjOf fail_exception resp "PUT" danger

/-!
# Theorems

Helper lemmas first, then one theorem per claim (with its witness or
counterexample as required).
-/

/-! ## Registry dictionary lemmas -/

theorem dictGet_dictSet_self (r : Registry) (k : String) (v : List Nat) :
    dictGet (dictSet r k v) k = some v := by
  induction r with
  | nil => simp [dictSet, dictGet]
  | cons p rest ih =>
    obtain ⟨k0, v0⟩ := p
    by_cases hp : k0 = k
    · subst hp; simp [dictSet, dictGet]
    · simp [dictSet, dictGet, hp, ih]

theorem dictGet_dictSet_ne (r : Registry) (k k2 : String) (v : List Nat) (h : k ≠ k2) :
    dictGet (dictSet r k v) k2 = dictGet r k2 := by
  induction r with
  | nil => simp [dictSet, dictGet, h]
  | cons p rest ih =>
    obtain ⟨k0, v0⟩ := p
    by_cases hp : k0 = k
    · subst hp; simp [dictSet, dictGet, h]
    · by_cases hq : k0 = k2
      · subst hq; simp [dictSet, dictGet, hp]
      · simp [dictSet, dictGet, hp, hq, ih]

theorem dictGet_ensureKey_self (r : Registry) (e : String) :
    dictGet (ensureKey r e) e = some ((dictGet r e).getD []) := by
  cases h : dictGet r e <;> simp [ensureKey, h, dictGet_dictSet_self]

theorem dictGet_ensureKey_ne (r : Registry) (e e2 : String) (h : e ≠ e2) :
    dictGet (ensureKey r e) e2 = dictGet r e2 := by
  cases hg : dictGet r e <;> simp [ensureKey, hg, dictGet_dictSet_ne _ _ _ _ h]

theorem subscribe_callable_ok_iff (subs : Registry) (e : String) (f : Nat) (r1 : Registry) :
    EventManager.subscribe_callable subs e f = .ok r1 ↔
      f ∉ (dictGet subs e).getD [] ∧
      r1 = dictSet (ensureKey subs e) e ((dictGet subs e).getD [] ++ [f]) := by
  simp only [EventManager.subscribe_callable, dictGet_ensureKey_self, Option.getD_some]
  by_cases hf : f ∈ (dictGet subs e).getD []
  · simp [hf]
  · simp [hf, eq_comm]

theorem subscribe_callable_error_iff (subs : Registry) (e : String) (f : Nat) :
    registryOpOk (EventManager.subscribe_callable subs e f) = false ↔
      f ∈ (dictGet subs e).getD [] := by
  simp only [EventManager.subscribe_callable, dictGet_ensureKey_self, Option.getD_some]
  by_cases hf : f ∈ (dictGet subs e).getD []
  · simp [hf, registryOpOk]
  · simp [hf, registryOpOk]

theorem emit_eq_getD (subs : Registry) (e : String) :
    EventManager.emit subs e = (dictGet subs e).getD [] := by
  cases h : dictGet subs e <;> simp [EventManager.emit, h]

/-! ## Claim C1 -/

theorem isStrVal_ne (v : Option JVal) (a b : String) (h1 : isStrVal v a = true)
    (h2 : a ≠ b) : isStrVal v b = false := by
  cases v with
  | none => simp [isStrVal] at h1
  | some w =>
    cases w <;> simp [isStrVal] at h1 ⊢
    subst h1; exact h2

/-- Claim C1, counterexample: a response whose result field is
"redirect_required" while it also carries error = "errorInvalidCredentials"
makes handle_login_error run the challenge sub-flow and raise no
LoginError, contradicting the claim's unconditional error clause. -/
theorem handle_login_error_redirect_overrides_error :
    Login.handle_login_error
        [("result", JVal.str "redirect_required"), ("error", JVal.str "errorInvalidCredentials")] =
      LoginOutcome.challengeRun ∧
    (Login.handle_login_error
        [("result", JVal.str "redirect_required"), ("error", JVal.str "errorInvalidCredentials")]).isLoginError =
      false :=
  ⟨rfl, rfl⟩

/-- Claim C1 (amended): handle_login_error is a sequential dispatch: result
"ok" returns without error; result "redirect_required" runs the challenge
sub-flow; when result is neither of those, an absent error key raises the
unexpected-format LoginError, error = "errorInvalidCredentials" raises the
terminal invalid-credentials LoginError without any challenge sub-flow,
and any other error value also raises a LoginError (nothing is silently
swallowed). -/
theorem handle_login_error_dispatch (j : JMap) :
    (isStrVal (jmGet j "result") "ok" = true → Login.handle_login_error j = .ok) ∧
    (isStrVal (jmGet j "result") "redirect_required" = true →
      Login.handle_login_error j = .challengeRun) ∧
    (resultNotOkNorRedirect j → jmGet j "error" = none →
      Login.handle_login_error j = .errUnexpectedFormat j) ∧
    (resultNotOkNorRedirect j → jmGet j "error" = some (JVal.str "errorInvalidCredentials") →
      Login.handle_login_error j = .errInvalidCredentials) ∧
    (resultNotOkNorRedirect j → ∀ v, jmGet j "error" = some v →
      (Login.handle_login_error j).isLoginError = true) := by
  refine ⟨?_, ?_, ?_, ?_, ?_⟩
  · intro h; simp [Login.handle_login_error, h]
  · intro h
    have hok : isStrVal (jmGet j "result") "ok" = false :=
      isStrVal_ne _ _ _ h (by decide)
    simp [Login.handle_login_error, h, hok]
  · rintro ⟨h1, h2⟩ he; simp [Login.handle_login_error, h1, h2, he]
  · rintro ⟨h1, h2⟩ he
    simp only [Login.handle_login_error, h1, h2, he, Bool.false_eq_true, if_false]
    rfl
  · rintro ⟨h1, h2⟩ v hv
    simp only [Login.handle_login_error, h1, h2, hv, Bool.false_eq_true, if_false]
    split
    · rfl
    · split <;> rfl

/-- Claim C1 witness: a response carrying only
error = "errorInvalidCredentials" raises the invalid-credentials
LoginError. -/
theorem handle_login_error_dispatch_witness :
    Login.handle_login_error [("error", JVal.str "errorInvalidCredentials")] =
      LoginOutcome.errInvalidCredentials :=
  (handle_login_error_dispatch [("error", JVal.str "errorInvalidCredentials")]).2.2.2.1
    ⟨rfl, rfl⟩ rfl

/-! ## Claim C6 -/

/-- Claim C6: in the subscription registry, registering the same callback a
second time under the same event raises ValueError; registering it under a
different event name succeeds; and a successful registration appends the
callback at the end of exactly its own event's handler list, leaving every
other event's handlers (hence what emit invokes, in registration order)
unchanged. -/
theorem event_registry_spec (subs : Registry) (event e2 : String) (f : Nat) (r1 : Registry) :
    (EventManager.subscribe_callable subs event f = .ok r1 →
      registryOpOk (EventManager.subscribe_callable r1 event f) = false) ∧
    (EventManager.subscribe_callable subs event f = .ok r1 → event ≠ e2 →
      f ∉ (dictGet subs e2).getD [] →
      EventManager.subscribe_callable r1 e2 f =
        .ok (dictSet (ensureKey r1 e2) e2 ((dictGet r1 e2).getD [] ++ [f]))) ∧
    (EventManager.subscribe_callable subs event f = .ok r1 →
      EventManager.emit r1 event = EventManager.emit subs event ++ [f] ∧
      (e2 ≠ event → EventManager.emit r1 e2 = EventManager.emit subs e2)) := by
  refine ⟨?_, ?_, ?_⟩
  · intro h
    obtain ⟨hf, hr⟩ := (subscribe_callable_ok_iff _ _ _ _).mp h
    subst hr
    rw [subscribe_callable_error_iff, dictGet_dictSet_self]
    simp
  · intro h hne hf2
    obtain ⟨hf, hr⟩ := (subscribe_callable_ok_iff _ _ _ _).mp h
    refine (subscribe_callable_ok_iff _ _ _ _).mpr ⟨?_, rfl⟩
    subst hr
    rw [dictGet_dictSet_ne _ _ _ _ hne, dictGet_ensureKey_ne _ _ _ hne]
    exact hf2
  · intro h
    obtain ⟨hf, hr⟩ := (subscribe_callable_ok_iff _ _ _ _).mp h
    constructor
    · subst hr
      rw [emit_eq_getD, emit_eq_getD, dictGet_dictSet_self]
      simp
    · intro hne
      subst hr
      rw [emit_eq_getD, emit_eq_getD,
        dictGet_dictSet_ne _ _ _ _ (Ne.symm hne), dictGet_ensureKey_ne _ _ _ (Ne.symm hne)]

/-- Claim C6 witness: registering callback 7 under "player_state_changed"
in an empty registry makes emit of that event invoke exactly [7]. -/
theorem event_registry_spec_witness :
    EventManager.emit [("player_state_changed", [7])] "player_state_changed" =
      EventManager.emit ([] : Registry) "player_state_changed" ++ [7] :=
  ((event_registry_spec [] "player_state_changed" "device_state_changed" 7
      [("player_state_changed", [7])]).2.2 rfl).1

/-! ## Claim C9 -/

theorem decorator_step (st : EMState) (event : String) (h : freshIds st) :
    EventManager.subscribe_decorator st event = .ok (decorated st event, st.nextWrapperId) := by
  have hnm : st.nextWrapperId ∉ (dictGet st.subs event).getD [] := by
    intro hm
    exact absurd (h event st.nextWrapperId hm) (lt_irrefl _)
  have hok := (subscribe_callable_ok_iff st.subs event st.nextWrapperId
    (dictSet (ensureKey st.subs event) event
      ((dictGet st.subs event).getD [] ++ [st.nextWrapperId]))).mpr ⟨hnm, rfl⟩
  simp [EventManager.subscribe_decorator, hok, decorated]

theorem dictGet_decorated_self (st : EMState) (event : String) :
    dictGet (decorated st event).subs event =
      some ((dictGet st.subs event).getD [] ++ [st.nextWrapperId]) := by
  simp [decorated, dictGet_dictSet_self]

theorem freshIds_decorated (st : EMState) (event : String) (h : freshIds st) :
    freshIds (decorated st event) := by
  intro e2 g hg
  by_cases he : e2 = event
  · subst he
    rw [dictGet_decorated_self] at hg
    simp only [Option.getD_some, List.mem_append, List.mem_singleton] at hg
    rcases hg with hg | hg
    · exact Nat.lt_succ_of_lt (h _ _ hg)
    · subst hg; exact Nat.lt_succ_self _
  · have : dictGet (decorated st event).subs e2 = dictGet st.subs e2 := by
      simp [decorated, dictGet_dictSet_ne _ _ _ _ (fun hx => he hx.symm),
        dictGet_ensureKey_ne _ _ _ (fun hx => he hx.symm)]
    rw [this] at hg
    exact Nat.lt_succ_of_lt (h _ _ hg)

/-- Claim C9: each application of the decorator returned by subscribe
registers a freshly created wrapper, so decorating twice under the same
event succeeds both times (never ValueError), registers two distinct
handlers, and emit then invokes both in registration order; and
_subscribe_callable raises exactly when the identical callable is already
registered under that same event. -/
theorem subscribe_decorator_fresh (st : EMState) (event : String) (subs : Registry)
    (e : String) (f : Nat) :
    (freshIds st →
      EventManager.subscribe_decorator st event = .ok (decorated st event, st.nextWrapperId) ∧
      freshIds (decorated st event) ∧
      EventManager.subscribe_decorator (decorated st event) event =
        .ok (decorated (decorated st event) event, (decorated st event).nextWrapperId) ∧
      st.nextWrapperId ≠ (decorated st event).nextWrapperId ∧
      EventManager.emit (decorated (decorated st event) event).subs event =
        EventManager.emit st.subs event ++ [st.nextWrapperId, (decorated st event).nextWrapperId]) ∧
    (registryOpOk (EventManager.subscribe_callable subs e f) = false ↔
      f ∈ (dictGet subs e).getD []) := by
  constructor
  · intro h
    refine ⟨decorator_step st event h, freshIds_decorated st event h,
      decorator_step _ event (freshIds_decorated st event h), ?_, ?_⟩
    · simp [decorated]
    · rw [emit_eq_getD, emit_eq_getD, dictGet_decorated_self, dictGet_decorated_self]
      simp
  · exact subscribe_callable_error_iff subs e f

/-- Claim C9 witness: decorating a function twice under "play" starting
from the empty registry registers wrappers 0 and 1 and emit invokes both
in order. -/
theorem subscribe_decorator_fresh_witness :
    EventManager.emit (decorated (decorated ⟨[], 0⟩ "play") "play").subs "play" =
      EventManager.emit ([] : Registry) "play" ++ [0, 1] := by
  have hfresh : freshIds ⟨[], 0⟩ := by
    intro e f hf
    exact absurd hf (List.not_mem_nil f)
  exact ((subscribe_decorator_fresh ⟨[], 0⟩ "play" [] "x" 0).1 hfresh).2.2.2.2

/-! ## Claim C8 -/

theorem buildLoop_all_exc (att : Nat → AttemptResult) (es : Nat → String) :
    ∀ m i err, (∀ j, j < m + 1 → att (i + j) = .exc (es (i + j))) →
      buildLoop att i (m + 1) err = .requestError (es (i + m)) (i + m + 1) := by
  intro m
  induction m with
  | zero =>
    intro i err h
    have h0 := h 0 (by omega)
    simp only [Nat.add_zero] at h0 ⊢
    simp [buildLoop, h0]
  | succ m ih =>
    intro i err h
    have h0 := h 0 (by omega)
    simp only [Nat.add_zero] at h0
    have hrec := ih (i + 1) (es i) (fun j hj => by
      have hx := h (j + 1) (by omega)
      rw [(by omega : i + (j + 1) = i + 1 + j)] at hx
      exact hx)
    simp only [buildLoop, h0]
    simp only [buildLoop] at hrec
    rw [hrec, (by omega : i + 1 + m = i + (m + 1))]

theorem buildLoop_first_ok (att : Nat → AttemptResult) (r : Nat) :
    ∀ k i m err, k < m → (∀ j, j < k → ∃ e, att (i + j) = .exc e) → att (i + k) = .ok r →
      buildLoop att i m err = .response r (i + k + 1) := by
  intro k
  induction k with
  | zero =>
    intro i m err hm hpre hok
    obtain ⟨m2, rfl⟩ : ∃ m2, m = m2 + 1 := ⟨m - 1, by omega⟩
    simp only [Nat.add_zero] at hok
    simp [buildLoop, hok]
  | succ k ih =>
    intro i m err hm hpre hok
    obtain ⟨m2, rfl⟩ : ∃ m2, m = m2 + 1 := ⟨m - 1, by omega⟩
    obtain ⟨e0, he0⟩ := hpre 0 (by omega)
    simp only [Nat.add_zero] at he0
    have hrec := ih (i + 1) m2 e0 (by omega)
      (fun j hj => by
        obtain ⟨e, he⟩ := hpre (j + 1) (by omega)
        rw [(by omega : i + (j + 1) = i + 1 + j)] at he
        exact ⟨e, he⟩)
      (by rw [(by omega : i + 1 + k = i + (k + 1))]; exact hok)
    simp only [buildLoop, he0]
    rw [hrec, (by omega : i + 1 + k = i + (k + 1))]

/-- Claim C8: a client constructed with auto_retries = n tries the request
at most n + 1 times; the first successful attempt is returned immediately
(with no further attempt); and if every attempt raises a transport
exception, RequestError is raised carrying the last attempt's message — a
request-layer outcome distinct by construction from the application-layer
error classes. -/
theorem build_request_retry_spec (att : Nat → AttemptResult) (n k r : Nat) (es : Nat → String) :
    (k ≤ n → (∀ j, j < k → ∃ e, att j = .exc e) → att k = .ok r →
      StdClient.build_request att n = .response r (k + 1) ∧
      TLSClient.build_request att n = .response r (k + 1) ∧ k + 1 ≤ n + 1) ∧
    ((∀ j, j ≤ n → att j = .exc (es j)) →
      StdClient.build_request att n = .requestError (es n) (n + 1) ∧
      TLSClient.build_request att n = .requestError (es n) (n + 1)) := by
  constructor
  · intro hk hpre hok
    have h := buildLoop_first_ok att r k 0 (n + 1) "Unknown" (by omega)
      (fun j hj => by simpa using hpre j hj)
      (by simpa using hok)
    refine ⟨?_, ?_, by omega⟩
    · simpa [StdClient.build_request] using h
    · simpa [TLSClient.build_request] using h
  · intro hall
    have h := buildLoop_all_exc att es n 0 "Unknown"
      (fun j hj => by simpa using hall j (by omega))
    exact ⟨by simpa [StdClient.build_request] using h,
      by simpa [TLSClient.build_request] using h⟩

/-- Claim C8 witness: with auto_retries = 2, a first attempt that raises
and a second that succeeds yield the second response after exactly 2
attempts. -/
theorem build_request_retry_spec_witness :
    StdClient.build_request (fun i => if i = 0 then .exc "timeout" else .ok 7) 2 =
      .response 7 2 := by
  have h := (build_request_retry_spec (fun i => if i = 0 then .exc "timeout" else .ok 7)
      2 1 7 (fun _ => "timeout")).1
    (by omega)
    (fun j hj => ⟨"timeout", by
      have hz : j = 0 := by omega
      subst hz
      rfl⟩)
    rfl
  exact h.1

/-! ## Claim C3 -/

theorem harvestLoop_pending (polls : Nat → PollResp) :
    ∀ n i, (∀ j, j < n → pollPending (polls (i + j))) →
      harvestLoop polls i n = (.solverError "Max retries reached", i + n) := by
  intro n
  induction n with
  | zero => intro i h; simp [harvestLoop]
  | succ n ih =>
    intro i h
    have h0 := h 0 (by omega)
    simp only [Nat.add_zero] at h0
    cases hp : polls i with
    | httpFail e => rw [hp] at h0; simp [pollPending] at h0
    | vendor eid code st sol =>
      rw [hp] at h0
      simp only [pollPending] at h0
      obtain ⟨he, hs⟩ := h0
      subst he
      have hrec := ih (i + 1) (fun j hj => by
        rw [(by omega : i + 1 + j = i + (j + 1))]
        exact h (j + 1) (by omega))
      simp only [harvestLoop, hp]
      rw [if_neg (by simp), if_neg hs, hrec, (by omega : i + 1 + n = i + (n + 1))]

theorem harvestLoop_ready (polls : Nat → PollResp) (code tok : String) :
    ∀ K i n, K < n → (∀ j, j < K → pollPending (polls (i + j))) →
      polls (i + K) = .vendor 0 code "ready" (some tok) →
      harvestLoop polls i n = (.solution tok, i + K + 1) := by
  intro K
  induction K with
  | zero =>
    intro i n hn hpre hready
    obtain ⟨n2, rfl⟩ : ∃ n2, n = n2 + 1 := ⟨n - 1, by omega⟩
    simp only [Nat.add_zero] at hready
    simp [harvestLoop, hready]
  | succ K ih =>
    intro i n hn hpre hready
    obtain ⟨n2, rfl⟩ : ∃ n2, n = n2 + 1 := ⟨n - 1, by omega⟩
    have h0 := hpre 0 (by omega)
    simp only [Nat.add_zero] at h0
    cases hp : polls i with
    | httpFail e => rw [hp] at h0; simp [pollPending] at h0
    | vendor eid c2 st sol =>
      rw [hp] at h0
      simp only [pollPending] at h0
      obtain ⟨he, hs⟩ := h0
      subst he
      have hrec := ih (i + 1) n2 (by omega)
        (fun j hj => by
          rw [(by omega : i + 1 + j = i + (j + 1))]
          exact hpre (j + 1) (by omega))
        (by rw [(by omega : i + 1 + K = i + (K + 1))]; exact hready)
      simp only [harvestLoop, hp]
      rw [if_neg (by simp), if_neg hs, hrec, (by omega : i + 1 + K = i + (K + 1))]

theorem harvestLoop_vendor_error (polls : Nat → PollResp) (eid : Int)
    (code st : String) (sol : Option String) :
    ∀ K i n, K < n → (∀ j, j < K → pollPending (polls (i + j))) →
      polls (i + K) = .vendor eid code st sol → eid ≠ 0 →
      harvestLoop polls i n = (.captchaException code, i + K + 1) := by
  intro K
  induction K with
  | zero =>
    intro i n hn hpre herr he
    obtain ⟨n2, rfl⟩ : ∃ n2, n = n2 + 1 := ⟨n - 1, by omega⟩
    simp only [Nat.add_zero] at herr
    simp [harvestLoop, herr, he]
  | succ K ih =>
    intro i n hn hpre herr he
    obtain ⟨n2, rfl⟩ : ∃ n2, n = n2 + 1 := ⟨n - 1, by omega⟩
    have h0 := hpre 0 (by omega)
    simp only [Nat.add_zero] at h0
    cases hp : polls i with
    | httpFail e => rw [hp] at h0; simp [pollPending] at h0
    | vendor eid2 c2 st2 sol2 =>
      rw [hp] at h0
      simp only [pollPending] at h0
      obtain ⟨he2, hs2⟩ := h0
      subst he2
      have hrec := ih (i + 1) n2 (by omega)
        (fun j hj => by
          rw [(by omega : i + 1 + j = i + (j + 1))]
          exact hpre (j + 1) (by omega))
        (by rw [(by omega : i + 1 + K = i + (K + 1))]; exact herr)
        he
      simp only [harvestLoop, hp]
      rw [if_neg (by simp), if_neg hs2, hrec, (by omega : i + 1 + K = i + (K + 1))]

theorem harvestLoop_local (polls polls2 : Nat → PollResp) :
    ∀ n i, (∀ j, j < n → polls2 (i + j) = polls (i + j)) →
      harvestLoop polls2 i n = harvestLoop polls i n := by
  intro n
  induction n with
  | zero => intro i h; rfl
  | succ n ih =>
    intro i h
    have h0 := h 0 (by omega)
    simp only [Nat.add_zero] at h0
    cases hpi : polls i with
    | httpFail e => simp [harvestLoop, h0, hpi]
    | vendor eid code st sol =>
      simp only [harvestLoop, h0, hpi]
      split_ifs with he hs
      · rfl
      · rfl
      · exact ih (i + 1) (fun j hj => by
          rw [(by omega : i + 1 + j = i + (j + 1))]
          exact h (j + 1) (by omega))

/-- Claim C3: for both adapters, with a zero-errorId createTask response:
if the first N-1 polls are pending and poll N is ready (N within the
budget R), solve_captcha returns the solution's gRecaptchaResponse after
exactly N polls; if all R polls are pending, it raises SolverError after
exactly R polls and never consults any later poll; and a non-zero vendor
errorId, at createTask or at any poll, raises CaptchaException (not
SolverError). -/
theorem solver_polling_spec (polls polls2 : Nat → PollResp) (R N K : Nat)
    (code0 tid0 code errCode st tok : String) (eid : Int) (solv : Option String) :
    (1 ≤ N → N ≤ R → (∀ j, j < N - 1 → pollPending (polls j)) →
      polls (N - 1) = .vendor 0 code "ready" (some tok) →
      Capmonster.solve_captcha (.vendor 0 code0 tid0) polls R = (.solution tok, N) ∧
      Capsolver.solve_captcha (.vendor 0 code0 tid0) polls R = (.solution tok, N)) ∧
    ((∀ j, j < R → pollPending (polls j)) →
      Capmonster.solve_captcha (.vendor 0 code0 tid0) polls R =
        (.solverError "Max retries reached", R) ∧
      Capsolver.solve_captcha (.vendor 0 code0 tid0) polls R =
        (.solverError "Max retries reached", R)) ∧
    ((∀ j, j < R → polls2 j = polls j) →
      Capmonster.solve_captcha (.vendor 0 code0 tid0) polls2 R =
        Capmonster.solve_captcha (.vendor 0 code0 tid0) polls R) ∧
    (eid ≠ 0 →
      Capmonster.solve_captcha (.vendor eid errCode tid0) polls R = (.captchaException errCode, 0) ∧
      Capsolver.solve_captcha (.vendor eid errCode tid0) polls R = (.captchaException errCode, 0) ∧
      Capmonster.solve_captcha (.httpFail errCode) polls R = (.captchaException errCode, 0) ∧
      Capsolver.solve_captcha (.httpFail errCode) polls R = (.captchaException errCode, 0)) ∧
    (K < R → (∀ j, j < K → pollPending (polls j)) →
      polls K = .vendor eid errCode st solv → eid ≠ 0 →
      Capmonster.solve_captcha (.vendor 0 code0 tid0) polls R = (.captchaException errCode, K + 1) ∧
      Capsolver.solve_captcha (.vendor 0 code0 tid0) polls R = (.captchaException errCode, K + 1)) := by
  have hreduce : ∀ q : Nat → PollResp,
      Capmonster.solve_captcha (.vendor 0 code0 tid0) q R = harvestLoop q 0 R ∧
      Capsolver.solve_captcha (.vendor 0 code0 tid0) q R = harvestLoop q 0 R := by
    intro q
    constructor <;>
      simp [Capmonster.solve_captcha, Capsolver.solve_captcha, Capmonster.create_task,
        Capsolver.create_task, Capmonster.harvest_task, Capsolver.harvest_task]
  refine ⟨?_, ?_, ?_, ?_, ?_⟩
  · intro h1 h2 hpre hready
    have h := harvestLoop_ready polls code tok (N - 1) 0 R (by omega)
      (fun j hj => by simpa using hpre j hj) (by simpa using hready)
    rw [(by omega : 0 + (N - 1) + 1 = N)] at h
    exact ⟨by rw [(hreduce polls).1, h], by rw [(hreduce polls).2, h]⟩
  · intro hall
    have h := harvestLoop_pending polls R 0 (fun j hj => by simpa using hall j hj)
    rw [(by omega : 0 + R = R)] at h
    exact ⟨by rw [(hreduce polls).1, h], by rw [(hreduce polls).2, h]⟩
  · intro hag
    have h := harvestLoop_local polls polls2 R 0 (fun j hj => by simpa using hag j hj)
    rw [(hreduce polls2).1, (hreduce polls).1, h]
  · intro he
    refine ⟨?_, ?_, ?_, ?_⟩ <;>
      simp [Capmonster.solve_captcha, Capsolver.solve_captcha, Capmonster.create_task,
        Capsolver.create_task, he]
  · intro hK hpre herr he
    have h := harvestLoop_vendor_error polls eid errCode st solv K 0 R hK
      (fun j hj => by simpa using hpre j hj) (by simpa using herr) he
    rw [(by omega : 0 + K + 1 = K + 1)] at h
    exact ⟨by rw [(hreduce polls).1, h], by rw [(hreduce polls).2, h]⟩

/-- Claim C3 witness: a vendor that is pending on polls 0 and 1 and ready
on poll 2 with solution "gtoken", under budget 5, yields the solution
after exactly 3 polls. -/
theorem solver_polling_spec_witness :
    Capmonster.solve_captcha (.vendor 0 "ok" "task1")
        (fun i => if i < 2 then .vendor 0 "none" "processing" none
                  else .vendor 0 "none" "ready" (some "gtoken")) 5 =
      (.solution "gtoken", 3) := by
  have h := (solver_polling_spec
      (fun i => if i < 2 then .vendor 0 "none" "processing" none
                else .vendor 0 "none" "ready" (some "gtoken"))
      (fun _ => .httpFail "x") 5 3 1 "ok" "task1" "none" "e" "s" "gtoken" 1 none).1
    (by omega) (by omega)
    (fun j hj => by
      have hj2 : j < 2 := by omega
      simp only [if_pos hj2, pollPending]
      exact ⟨by trivial, by decide⟩)
    rfl
  exact h.1

/-! ## Claim C10 -/

/-- Claim C10: with a configured fail_exception (as Login's constructor
configures LoginError), GET is always parsed with danger=True, so a
failing status raises the fail_exception from inside parse_response; POST
and PUT without danger return the failed Response object instead, whose
fail flag is the caller's only view of the failure. -/
theorem tls_danger_dispatch (jp : String → Option JMap) (fe : ExcClass) (resp : TLSResp) :
    (400 ≤ resp.status_code →
      TLSClient.get jp (some fe) resp = .error (fe, "GET") ∧
      TLSClient.get jp Login.clientFailException resp = .error (.loginError, "GET")) ∧
    (resp.status_code < 400 →
      TLSClient.get jp (some fe) resp = .ok (mkParsedResponse jp resp)) ∧
    (TLSClient.post jp (some fe) false resp = .ok (mkParsedResponse jp resp) ∧
     TLSClient.put jp (some fe) false resp = .ok (mkParsedResponse jp resp)) ∧
    (400 ≤ resp.status_code → (mkParsedResponse jp resp).fail = true) ∧
    (resp.status_code < 400 → (mkParsedResponse jp resp).fail = false) := by
  have hstatus : (mkParsedResponse jp resp).status_code = resp.status_code := by
    simp [mkParsedResponse]
  refine ⟨?_, ?_, ?_, ?_, ?_⟩
  · intro h
    have hfail : (mkParsedResponse jp resp).fail = true := by
      simp [Response.fail, hstatus, h]
    constructor <;>
      simp [TLSClient.get, TLSClient.parse_response, Login.clientFailException, hfail]
  · intro h
    have hfail : (mkParsedResponse jp resp).fail = false := by
      simp [Response.fail, hstatus]
      omega
    simp [TLSClient.get, TLSClient.parse_response, hfail]
  · exact ⟨rfl, rfl⟩
  · intro h
    simp [Response.fail, hstatus, h]
  · intro h
    simp [Response.fail, hstatus]
    omega

/-- Claim C10 witness: a 401 GET with LoginError configured raises
LoginError from parse_response. -/
theorem tls_danger_dispatch_witness :
    TLSClient.get (fun _ => none) (some ExcClass.loginError) ⟨401, "denied"⟩ =
      .error (ExcClass.loginError, "GET") :=
  ((tls_danger_dispatch (fun _ => none) ExcClass.loginError ⟨401, "denied"⟩).1 (by decide)).1

/-! ## Claim C2 -/

theorem cookiesSet_append (acc : List (String × String)) (k v : String)
    (h : ∀ p ∈ acc, p.1 ≠ k) : cookiesSet acc k v = acc ++ [(k, v)] := by
  have hcond : acc.any (fun p => p.1 == k) = false := by
    rw [List.any_eq_false]
    intro p hp
    simp [h p hp]
  simp [cookiesSet, hcond]

theorem foldSet_of_nodup :
    ∀ (m acc : List (String × String)), ((acc ++ m).map Prod.fst).Nodup →
      m.foldl (fun a p => cookiesSet a p.1 p.2) acc = acc ++ m := by
  intro m
  induction m with
  | nil => intro acc h; simp
  | cons p ms ih =>
    intro acc h
    obtain ⟨k, v⟩ := p
    have hmap := h
    rw [List.map_append, List.map_cons, List.nodup_append] at hmap
    obtain ⟨hn1, hn2, hdisj⟩ := hmap
    have hk : ∀ q ∈ acc, q.1 ≠ k := by
      intro q hq he
      apply hdisj (List.mem_map_of_mem Prod.fst hq)
      rw [he]
      exact List.mem_cons_self _ _
    rw [List.foldl_cons]
    simp only
    rw [cookiesSet_append acc k v hk]
    have h2 : (((acc ++ [(k, v)]) ++ ms).map Prod.fst).Nodup := by
      rw [List.append_assoc]
      simpa using h
    rw [ih (acc ++ [(k, v)]) h2, List.append_assoc]
    simp

theorem getDict_keys_nodup (jar : List (String × String)) :
    ((getDict jar).map Prod.fst).Nodup := by
  suffices hgen : ∀ acc, (acc.map Prod.fst).Nodup →
      ((jar.foldl (fun a p => cookiesSet a p.1 p.2) acc).map Prod.fst).Nodup by
    exact hgen [] (by simp)
  induction jar with
  | nil => intro acc h; simpa
  | cons p ms ih =>
    intro acc h
    obtain ⟨k, v⟩ := p
    rw [List.foldl_cons]
    simp only
    apply ih
    cases hc : acc.any (fun q => q.1 == k) with
    | true =>
      have hkeys : (acc.map (fun q => if q.1 == k then (k, v) else q)).map Prod.fst =
          acc.map Prod.fst := by
        rw [List.map_map]
        apply List.map_congr_left
        intro q hq
        by_cases hqk : q.1 = k
        · simp [hqk]
        · simp [hqk]
      simp only [cookiesSet, hc, if_true]
      rw [hkeys]
      exact h
    | false =>
      have hc2 : ∀ x ∈ acc, ¬ x.1 = k := by
        intro x hx
        have hx2 := List.any_eq_false.mp hc x hx
        simpa using hx2
      have hnot : k ∉ acc.map Prod.fst := by
        intro hm
        obtain ⟨q, hq, he⟩ := List.mem_map.mp hm
        exact hc2 q hq he
      simp only [cookiesSet, hc, Bool.false_eq_true, if_false]
      rw [List.map_append, List.nodup_append]
      refine ⟨h, by simp, ?_⟩
      intro a ha hmem
      simp only [List.map_cons, List.map_nil, List.mem_singleton] at hmem
      subst hmem
      exact hnot ha

theorem getDict_idem (jar : List (String × String)) :
    (getDict jar).foldl (fun a p => cookiesSet a p.1 p.2) [] = getDict jar := by
  have h := foldSet_of_nodup (getDict jar) [] (by simpa using getDict_keys_nodup jar)
  simpa using h

/-- Claim C2, counterexample: a logged-in session whose identifier is the
empty string (Login's constructor accepts email = "" because only None is
rejected) saves successfully, but restoring its dump raises ValueError
instead of producing a logged-in session. -/
theorem login_save_roundtrip_empty_identifier :
    Login.save { identifier_credentials := "", password := "pw", authorized := true,
                 cookies := [("sp_dc", "x")] } =
      .ok { identifier := some "", password := some "pw",
            cookies := .map [("sp_dc", "x")] } ∧
    Login.from_cookies { identifier := some "", password := some "pw",
                         cookies := .map [("sp_dc", "x")] } [] [] =
      .error "Invalid dump format: must contain identifier and cookies" :=
  ⟨rfl, rfl⟩

/-- Claim C2 (amended): for every logged-in session whose identifier is
non-empty, restoring via from_cookies from the dump produced by save
yields a session whose logged_in flag is true and whose client cookie jar
holds exactly the saved cookie key/value pairs, and the restore path
issues no network request (the request trace is returned unchanged). -/
theorem login_save_roundtrip (l : LoginSession) (jar0 : List (String × String))
    (tr : List String) (ha : l.authorized = true) (hid : l.identifier_credentials ≠ "") :
    Login.save l = .ok { identifier := some l.identifier_credentials,
                         password := some l.password,
                         cookies := .map (getDict l.cookies) } ∧
    Login.from_cookies { identifier := some l.identifier_credentials,
                         password := some l.password,
                         cookies := .map (getDict l.cookies) } jar0 tr =
      .ok ({ identifier_credentials := l.identifier_credentials, password := l.password,
             authorized := true, cookies := getDict l.cookies }, tr) := by
  constructor
  · simp [Login.save, ha]
  · simp [Login.from_cookies, hid, getDict_idem]

/-- Claim C2 witness: a concrete logged-in session with two cookies
restores from its own dump to a logged-in session with exactly those
cookies and an unchanged (empty) request trace. -/
theorem login_save_roundtrip_witness :
    Login.from_cookies { identifier := some "user@mail.com", password := some "pw",
                         cookies := .map (getDict [("sp_dc", "a"), ("sp_key", "b")]) } [] [] =
      .ok ({ identifier_credentials := "user@mail.com", password := "pw",
             authorized := true, cookies := getDict [("sp_dc", "a"), ("sp_key", "b")] }, []) :=
  (login_save_roundtrip
    { identifier_credentials := "user@mail.com", password := "pw", authorized := true,
      cookies := [("sp_dc", "a"), ("sp_key", "b")] } [] [] rfl (by decide)).2

/-! ## Claim C5 -/

/-- Claim C5, counterexample: a first frame whose "headers" value is a
truthy non-mapping makes the constructor raise AttributeError (calling
.get on a str), not the ValueError the claim names — though construction
still fails before any thread starts. -/
theorem ws_init_nonmapping_headers :
    WebsocketStreamer.construct true [("headers", JVal.str "oops")] =
      .error (.attributeError "get") ∧
    PyExc.attributeError "get" ≠ PyExc.valueError "Invalid init packet" :=
  ⟨rfl, by decide⟩

/-- Claim C5 (amended): when the first frame's resolved headers value is a
mapping without a usable "Spotify-Connection-Id" (absent or null),
construction raises ValueError("Invalid init packet"); and whenever the
frame carries no usable connection id at all, construction never returns a
channel — in particular the keep-alive thread, started only after
get_init_packet succeeds, is never started (a truthy non-mapping headers
value fails with AttributeError instead of ValueError). -/
theorem ws_init_missing_connection_id (frame : JMap) (entries : JMap) (ch : WsChannel) :
    (resolvedHeaders frame = .obj entries →
      (jmGet entries "Spotify-Connection-Id" = none ∨
       jmGet entries "Spotify-Connection-Id" = some JVal.null) →
      WebsocketStreamer.construct true frame = .error (.valueError "Invalid init packet")) ∧
    (lacksConnectionId frame → WebsocketStreamer.construct true frame ≠ .ok ch) := by
  constructor
  · intro hres hid
    have hpkt : WebsocketStreamer.get_init_packet frame =
        .error (.valueError "Invalid init packet") := by
      simp only [WebsocketStreamer.get_init_packet, hres]
      rcases hid with h | h <;> simp [h]
    simp [WebsocketStreamer.construct, hpkt]
  · intro hlacks hok
    simp only [WebsocketStreamer.construct, not_true, if_false] at hok
    cases hpkt : WebsocketStreamer.get_init_packet frame with
    | error e => rw [hpkt] at hok; exact absurd hok (by simp)
    | ok cid =>
      simp only [WebsocketStreamer.get_init_packet] at hpkt
      cases hh : jmGet frame "headers" with
      | none => simp [resolvedHeaders, hh, jmGet] at hpkt
      | some v =>
        cases htr : v.truthy with
        | false => simp [resolvedHeaders, hh, htr, jmGet] at hpkt
        | true =>
          have hres : resolvedHeaders frame = v := by simp [resolvedHeaders, hh, htr]
          rw [hres] at hpkt
          cases v with
          | obj entries2 =>
            cases hid2 : jmGet entries2 "Spotify-Connection-Id" with
            | none => simp [hid2] at hpkt
            | some w =>
              have hnull : w = JVal.null := hlacks entries2 w hh hid2
              subst hnull
              simp [hid2] at hpkt
          | null => simp at hpkt
          | bool b => simp at hpkt
          | num n => simp at hpkt
          | str s => simp at hpkt
          | arr a => simp at hpkt

/-- Claim C5 witness: a first frame whose headers mapping has no
Spotify-Connection-Id entry makes construction raise
ValueError("Invalid init packet"). -/
theorem ws_init_missing_connection_id_witness :
    WebsocketStreamer.construct true [("headers", JVal.obj [("Subject", JVal.str "x")])] =
      .error (.valueError "Invalid init packet") :=
  (ws_init_missing_connection_id [("headers", JVal.obj [("Subject", JVal.str "x")])]
      [("Subject", JVal.str "x")] ⟨JVal.null, false⟩).1 rfl (Or.inl rfl)

/-! ## Claim C7 -/

theorem strFind_cons (pat : List Char) (x : Char) (xs : List Char) :
    strFind pat (x :: xs) =
      if pat.isPrefixOf (x :: xs) then some 0 else (strFind pat xs).map (· + 1) := rfl

theorem strFind_single_none (ch : Char) (l : List Char) (h : ch ∉ l) :
    strFind [ch] l = none := by
  induction l with
  | nil => rfl
  | cons x xs ih =>
    have hx : ch ≠ x := fun he => h (he ▸ List.mem_cons_self x xs)
    have hpre : [ch].isPrefixOf (x :: xs) = false := by
      simp [List.isPrefixOf, hx]
    simp only [strFind, hpre, Bool.false_eq_true, if_false]
    rw [ih (fun hm => h (List.mem_cons_of_mem x hm))]
    rfl

theorem strFind_single_at (ch : Char) (m t : List Char) (h : ch ∉ m) :
    strFind [ch] (m ++ ch :: t) = some m.length := by
  induction m with
  | nil =>
    have hpre : [ch].isPrefixOf (ch :: t) = true := by simp [List.isPrefixOf]
    simp [strFind, hpre]
  | cons x xs ih =>
    have hx : ch ≠ x := fun he => h (he ▸ List.mem_cons_self x xs)
    have hpre : [ch].isPrefixOf (x :: (xs ++ ch :: t)) = false := by
      simp [List.isPrefixOf, hx]
    rw [List.cons_append, strFind_cons, hpre]
    simp only [Bool.false_eq_true, if_false]
    rw [ih (fun hm => h (List.mem_cons_of_mem x hm))]
    rfl

/-- Claim C7: parse_json_string returns exactly the characters strictly
between the end of the first occurrence of the marker (the key followed by
quote-colon-quote) and the next double quote; when the marker is absent,
or no double quote follows it, it raises ValueError — it never returns a
default. -/
theorem parse_json_string_spec (b s mid rest : List Char) (i : Nat) :
    (strFind (s ++ ['\"', ':', '\"']) b = some i →
      b.drop (i + s.length + 3) = mid ++ '\"' :: rest → '\"' ∉ mid →
      parse_json_string b s = .ok mid) ∧
    (strFind (s ++ ['\"', ':', '\"']) b = none →
      parse_json_string b s = .error "Substring not found in JSON string") ∧
    (strFind (s ++ ['\"', ':', '\"']) b = some i → '\"' ∉ b.drop (i + s.length + 3) →
      parse_json_string b s = .error "Closing double quote not found") := by
  refine ⟨?_, ?_, ?_⟩
  · intro hf hdrop hmem
    simp only [parse_json_string, hf]
    rw [hdrop, strFind_single_at _ _ _ hmem]
    simp [List.take_left]
  · intro hf
    simp [parse_json_string, hf]
  · intro hf hmem
    simp only [parse_json_string, hf]
    rw [strFind_single_none _ _ hmem]

/-- Claim C7 witness: scanning for key "flowCtx" in a text containing the
marker returns exactly the characters up to the next double quote. -/
theorem parse_json_string_spec_witness :
    parse_json_string ("flowCtx\":\"abc\"tail".toList) ("flowCtx".toList) =
      .ok ("abc".toList) :=
  (parse_json_string_spec ("flowCtx\":\"abc\"tail".toList) ("flowCtx".toList)
      ("abc".toList) ("tail".toList) 0).1 (by decide) (by decide) (by decide)

/-! ## Claim C4 : splitOnSeq machinery -/

theorem splitOnSeqAux_congr (pat : List Char) :
    ∀ f1 f2 (hay : List Char), hay.length ≤ f1 → hay.length ≤ f2 →
      splitOnSeqAux pat f1 hay = splitOnSeqAux pat f2 hay := by
  intro f1
  induction f1 with
  | zero =>
    intro f2 hay h1 h2
    have hnil : hay = [] := List.eq_nil_of_length_eq_zero (Nat.le_zero.mp h1)
    subst hnil
    cases f2 <;> rfl
  | succ f1 ih =>
    intro f2 hay h1 h2
    cases hay with
    | nil => cases f2 <;> rfl
    | cons x xs =>
      simp only [List.length_cons] at h1 h2
      obtain ⟨f3, rfl⟩ : ∃ f3, f2 = f3 + 1 := ⟨f2 - 1, by omega⟩
      simp only [splitOnSeqAux]
      by_cases hp : pat.isPrefixOf (x :: xs) ∧ pat ≠ []
      · rw [if_pos hp, if_pos hp]
        congr 1
        apply ih
        · rw [List.length_drop]; omega
        · rw [List.length_drop]; omega
      · rw [if_neg hp, if_neg hp]
        rw [ih f3 xs (by omega) (by omega)]

theorem splitOnSeq_cons_pos (pat : List Char) (x : Char) (xs : List Char)
    (h : pat.isPrefixOf (x :: xs) ∧ pat ≠ []) :
    splitOnSeq pat (x :: xs) = [] :: splitOnSeq pat (xs.drop (pat.length - 1)) := by
  unfold splitOnSeq
  simp only [List.length_cons, splitOnSeqAux, if_pos h]
  congr 1
  apply splitOnSeqAux_congr
  · rw [List.length_drop]; omega
  · exact Nat.le_refl _

theorem splitOnSeq_cons_neg (pat : List Char) (x : Char) (xs : List Char)
    (h : ¬(pat.isPrefixOf (x :: xs) ∧ pat ≠ [])) :
    splitOnSeq pat (x :: xs) =
      match splitOnSeq pat xs with
      | [] => [[x]]
      | hd :: t => (x :: hd) :: t := by
  unfold splitOnSeq
  simp only [List.length_cons, splitOnSeqAux, if_neg h]

theorem splitOnSeq_ne_nil (pat hay : List Char) : splitOnSeq pat hay ≠ [] := by
  induction hay with
  | nil => simp [splitOnSeq, splitOnSeqAux]
  | cons x xs ih =>
    by_cases h : pat.isPrefixOf (x :: xs) ∧ pat ≠ []
    · rw [splitOnSeq_cons_pos pat x xs h]; simp
    · rw [splitOnSeq_cons_neg pat x xs h]
      cases hs : splitOnSeq pat xs <;> simp

theorem splitOnSeq_at_marker (pat : List Char) (hne : pat ≠ []) :
    ∀ a b : List Char, strFind pat (a ++ pat ++ b) = some a.length →
      splitOnSeq pat (a ++ pat ++ b) = a :: splitOnSeq pat b := by
  intro a
  induction a with
  | nil =>
    intro b hf
    obtain ⟨p0, ps, rfl⟩ : ∃ p0 ps, pat = p0 :: ps := by
      cases pat with
      | nil => exact absurd rfl hne
      | cons p0 ps => exact ⟨p0, ps, rfl⟩
    have hpre : (p0 :: ps).isPrefixOf ((p0 :: ps) ++ b) = true :=
      List.isPrefixOf_iff_prefix.mpr (List.prefix_append (p0 :: ps) b)
    simp only [List.nil_append, List.cons_append] at hpre ⊢
    rw [splitOnSeq_cons_pos _ _ _ ⟨hpre, hne⟩]
    simp only [List.length_cons, Nat.add_sub_cancel]
    rw [List.drop_left ps b]
  | cons x a2 ih =>
    intro b hf
    simp only [List.cons_append] at hf ⊢
    by_cases hp : pat.isPrefixOf (x :: (a2 ++ pat ++ b))
    · simp only [strFind, List.length_cons] at hf
      rw [if_pos hp] at hf
      simp at hf
    · simp only [strFind, List.length_cons] at hf
      rw [if_neg hp] at hf
      have hfind : strFind pat (a2 ++ pat ++ b) = some a2.length := by
        cases hx : strFind pat (a2 ++ pat ++ b) with
        | none => rw [hx] at hf; simp at hf
        | some n =>
          rw [hx] at hf
          simp only [Option.map_some'] at hf
          have hn : n = a2.length := by
            have h3 := Option.some.inj hf
            omega
          rw [hn]
      rw [splitOnSeq_cons_neg pat x _ (fun hcon => hp hcon.1)]
      rw [ih b hfind]

theorem splitOnSeq_headD (pat : List Char) (hne : pat ≠ []) :
    ∀ hay : List Char, (splitOnSeq pat hay).headD [] =
      hay.take ((strFind pat hay).getD hay.length) := by
  intro hay
  induction hay with
  | nil => simp [splitOnSeq, splitOnSeqAux]
  | cons x xs ih =>
    by_cases hp : pat.isPrefixOf (x :: xs)
    · rw [splitOnSeq_cons_pos pat x xs ⟨hp, hne⟩]
      simp [strFind, hp]
    · rw [splitOnSeq_cons_neg pat x xs (fun hcon => hp hcon.1)]
      cases hsx : splitOnSeq pat xs with
      | nil => exact absurd hsx (splitOnSeq_ne_nil pat xs)
      | cons hd t =>
        have hhd : hd = xs.take ((strFind pat xs).getD xs.length) := by
          have h2 := ih
          rw [hsx] at h2
          simpa using h2
        simp only [List.headD_cons]
        have hfind : strFind pat (x :: xs) = (strFind pat xs).map (· + 1) := by
          simp only [strFind]
          rw [if_neg hp]
        rw [hfind]
        cases hf : strFind pat xs with
        | none =>
          rw [hf] at hhd
          simp only [Option.getD_none] at hhd
          rw [List.take_length] at hhd
          subst hhd
          simp [List.take_succ_cons, List.take_length]
        | some n =>
          rw [hf] at hhd
          simp only [Option.getD_some] at hhd
          subst hhd
          simp [List.take_succ_cons]

theorem strFind_isPrefixOf (pat : List Char) :
    ∀ hay n, strFind pat hay = some n → pat.isPrefixOf (hay.drop n) = true := by
  intro hay
  induction hay with
  | nil =>
    intro n h
    cases pat with
    | nil =>
      simp only [strFind, List.isEmpty_nil, if_true] at h
      have hn : n = 0 := (Option.some.inj h).symm
      subst hn
      simp [List.isPrefixOf]
    | cons q qs =>
      simp [strFind] at h
  | cons x xs ih =>
    intro n h
    rw [strFind_cons] at h
    by_cases hp : pat.isPrefixOf (x :: xs)
    · rw [if_pos hp] at h
      have hn : n = 0 := (Option.some.inj h).symm
      subst hn
      simpa using hp
    · rw [if_neg hp] at h
      cases hf : strFind pat xs with
      | none => rw [hf] at h; simp at h
      | some m =>
        rw [hf] at h
        simp only [Option.map_some'] at h
        have hn : n = m + 1 := (Option.some.inj h).symm
        subst hn
        rw [List.drop_succ_cons]
        exact ih m hf

theorem mem_of_getElemQ (l : List Char) (i : Nat) (a : Char) (h : l[i]? = some a) : a ∈ l := by
  induction l generalizing i with
  | nil => simp at h
  | cons x xs ih =>
    cases i with
    | zero =>
      simp only [List.getElem?_cons_zero] at h
      simp [Option.some.inj h]
    | succ i2 =>
      simp only [List.getElem?_cons_succ] at h
      exact List.mem_cons_of_mem x (ih i2 h)

theorem isPrefixOf_getElem (q l : List Char) (h : q.isPrefixOf l = true) (i : Nat)
    (hi : i < q.length) : l[i]? = q[i]? := by
  obtain ⟨t, ht⟩ := List.isPrefixOf_iff_prefix.mp h
  subst ht
  rw [List.getElem?_append, if_pos hi]

theorem no_marker_in_session (s tail : List Char) (hs : ('/' : Char) ∉ s)
    (hlast : s.getLast? ≠ some 'c') :
    ∀ m, m ≤ s.length → ['c', '/'].isPrefixOf ((s ++ '/' :: tail).drop m) = false := by
  intro m hm
  by_contra hcon
  have hpre : ['c', '/'].isPrefixOf ((s ++ '/' :: tail).drop m) = true := by
    simpa using hcon
  have h0 : (s ++ '/' :: tail)[m]? = some 'c' := by
    have hx := isPrefixOf_getElem _ _ hpre 0 (by simp)
    rw [List.getElem?_drop] at hx
    simpa using hx
  have h1 : (s ++ '/' :: tail)[m + 1]? = some '/' := by
    have hx := isPrefixOf_getElem _ _ hpre 1 (by simp)
    rw [List.getElem?_drop] at hx
    simpa using hx
  rcases Nat.lt_or_ge m s.length with hlt | hge
  · have hsm : s[m]? = some 'c' := by
      rw [List.getElem?_append, if_pos hlt] at h0
      exact h0
    rcases Nat.lt_or_ge (m + 1) s.length with hlt2 | hge2
    · have hsm2 : s[m + 1]? = some '/' := by
        rw [List.getElem?_append, if_pos hlt2] at h1
        exact h1
      exact hs (mem_of_getElemQ s (m + 1) '/' hsm2)
    · have hlast2 : s.getLast? = some 'c' := by
        rw [List.getLast?_eq_getElem?, (by omega : s.length - 1 = m)]
        exact hsm
      exact hlast hlast2
  · have hmeq : m = s.length := by omega
    subst hmeq
    rw [List.getElem?_append, if_neg (by omega)] at h0
    simp only [Nat.sub_self, List.getElem?_cons_zero] at h0
    exact absurd (Option.some.inj h0) (by decide)

theorem no_sess_marker_in_challenge (s d r : List Char) (hs : ('/' : Char) ∉ s)
    (hd : ('/' : Char) ∉ d) (hsne : s ≠ []) (hsuf : ¬ s <:+ d) :
    ∀ m, m ≤ d.length → (s ++ ['/']).isPrefixOf ((d ++ '/' :: r).drop m) = false := by
  intro m hm
  by_contra hcon
  have hpre : (s ++ ['/']).isPrefixOf ((d ++ '/' :: r).drop m) = true := by
    simpa using hcon
  have hslash : (d ++ '/' :: r)[m + s.length]? = some '/' := by
    have hx := isPrefixOf_getElem _ _ hpre s.length (by simp)
    rw [List.getElem?_drop] at hx
    rw [hx, List.getElem?_append, if_neg (by omega), Nat.sub_self, List.getElem?_cons_zero]
  rcases Nat.lt_trichotomy (m + s.length) d.length with hlt | heq | hgt
  · rw [List.getElem?_append, if_pos hlt] at hslash
    exact hd (mem_of_getElemQ d _ '/' hslash)
  · have hdropm : d.drop m = s := by
      apply List.ext_getElem?
      intro i
      rcases Nat.lt_or_ge i s.length with hi | hi
      · have e1 : (d.drop m)[i]? = d[m + i]? := List.getElem?_drop d m i
        have e2 : d[m + i]? = (d ++ '/' :: r)[m + i]? := by
          rw [List.getElem?_append, if_pos (by omega)]
        have e3 := isPrefixOf_getElem _ _ hpre i (by simp; omega)
        rw [List.getElem?_drop] at e3
        have e4 : (s ++ ['/'])[i]? = s[i]? := by
          rw [List.getElem?_append, if_pos hi]
        rw [e1, e2, e3, e4]
      · have e1 : (d.drop m)[i]? = none :=
          List.getElem?_eq_none (by rw [List.length_drop]; omega)
        have e2 : s[i]? = none := List.getElem?_eq_none (by omega)
        rw [e1, e2]
    exact hsuf (hdropm ▸ List.drop_suffix m d)
  · have hi0 : d.length - m < s.length := by omega
    have hpt := isPrefixOf_getElem _ _ hpre (d.length - m) (by simp; omega)
    rw [List.getElem?_drop] at hpt
    have hcl : (d ++ '/' :: r)[m + (d.length - m)]? = some '/' := by
      rw [(by omega : m + (d.length - m) = d.length), List.getElem?_append,
        if_neg (by omega), Nat.sub_self, List.getElem?_cons_zero]
    rw [hcl] at hpt
    rw [List.getElem?_append, if_pos hi0] at hpt
    exact hs (mem_of_getElemQ s _ '/' hpt.symm)

/-- Claim C4, counterexample: the URL
"https://x.c/c/SESS/CHAL/end" has the path shape .../c/SESS/CHAL/..., but
because "c/" already occurs in the prefix ("x.c/"), the positional parser
extracts ("", "") instead of ("SESS", "CHAL"). -/
theorem challenge_url_parse_prefix_collision :
    parsedIds ("https://x.c/c/SESS/CHAL/end".toList) = some ([], []) ∧
    "https://x.c/c/SESS/CHAL/end".toList =
      "https://x.c/".toList ++ 'c' :: '/' ::
        ("SESS".toList ++ '/' :: ("CHAL".toList ++ '/' :: "end".toList)) ∧
    ([] : List Char) ≠ "SESS".toList := by
  refine ⟨by decide, by decide, by decide⟩

/-- Claim C4 (amended): for a challenge URL of shape
prefix ++ "c/" ++ session_id ++ "/" ++ challenge_id ++ "/" ++ rest in
which the first occurrence of "c/" is the path marker, the first
occurrence of session_id ++ "/" is the one right after that marker,
session_id is non-empty, neither id contains "/", session_id does not end
in the letter c, and session_id is not a suffix of challenge_id — the
payload built by _construct_challenge_payload is exactly the JSON
(session_id, challenge_id, recaptcha_challenge_v1.solve.recaptcha_token)
with both ids equal to the URL path segments. -/
theorem challenge_payload_parses (p s c r : List Char) (tok : String)
    (hs : ('/' : Char) ∉ s) (hc : ('/' : Char) ∉ c) (hsne : s ≠ [])
    (hlast : s.getLast? ≠ some 'c') (hsuf : ¬ s <:+ c)
    (h1 : strFind ['c', '/'] (p ++ 'c' :: '/' :: (s ++ '/' :: (c ++ '/' :: r))) = some p.length)
    (h2 : strFind (s ++ ['/']) (p ++ 'c' :: '/' :: (s ++ '/' :: (c ++ '/' :: r))) =
      some (p.length + 2)) :
    parsedIds (p ++ 'c' :: '/' :: (s ++ '/' :: (c ++ '/' :: r))) = some (s, c) ∧
    construct_challenge_payload (p ++ 'c' :: '/' :: (s ++ '/' :: (c ++ '/' :: r))) tok =
      some (challengePayloadJson s c tok) := by
  have hshape1 : p ++ 'c' :: '/' :: (s ++ '/' :: (c ++ '/' :: r)) =
      p ++ ['c', '/'] ++ (s ++ '/' :: (c ++ '/' :: r)) := by
    simp
  have hsplit1 : splitOnSeq ['c', '/'] (p ++ 'c' :: '/' :: (s ++ '/' :: (c ++ '/' :: r))) =
      p :: splitOnSeq ['c', '/'] (s ++ '/' :: (c ++ '/' :: r)) := by
    rw [hshape1]
    exact splitOnSeq_at_marker ['c', '/'] (by decide) p _ (by rw [← hshape1]; exact h1)
  have hne1 := splitOnSeq_ne_nil ['c', '/'] (s ++ '/' :: (c ++ '/' :: r))
  obtain ⟨hd1, t1, hcons1⟩ := List.exists_cons_of_ne_nil hne1
  have hget1 : (splitOnSeq ['c', '/'] (p ++ 'c' :: '/' :: (s ++ '/' :: (c ++ '/' :: r)))).get? 1 =
      some hd1 := by
    rw [hsplit1, hcons1]
    rfl
  have hhd1 : hd1 = (s ++ '/' :: (c ++ '/' :: r)).take
      ((strFind ['c', '/'] (s ++ '/' :: (c ++ '/' :: r))).getD
        (s ++ '/' :: (c ++ '/' :: r)).length) := by
    have hx := splitOnSeq_headD ['c', '/'] (by decide) (s ++ '/' :: (c ++ '/' :: r))
    rw [hcons1] at hx
    simpa using hx
  have hn1 : s.length + 1 ≤ (strFind ['c', '/'] (s ++ '/' :: (c ++ '/' :: r))).getD
      (s ++ '/' :: (c ++ '/' :: r)).length := by
    cases hf : strFind ['c', '/'] (s ++ '/' :: (c ++ '/' :: r)) with
    | none =>
      simp only [Option.getD_none, List.length_append, List.length_cons]
      omega
    | some m =>
      simp only [Option.getD_some]
      by_contra hlt
      push_neg at hlt
      have hpre := strFind_isPrefixOf ['c', '/'] _ m hf
      have hfalse := no_marker_in_session s (c ++ '/' :: r) hs hlast m (by omega)
      rw [hfalse] at hpre
      exact absurd hpre (by decide)
  obtain ⟨k1, hk1⟩ : ∃ k1, (strFind ['c', '/'] (s ++ '/' :: (c ++ '/' :: r))).getD
      (s ++ '/' :: (c ++ '/' :: r)).length = s.length + (k1 + 1) :=
    ⟨(strFind ['c', '/'] (s ++ '/' :: (c ++ '/' :: r))).getD
      (s ++ '/' :: (c ++ '/' :: r)).length - (s.length + 1), by omega⟩
  have htake1 : hd1 = s ++ '/' :: ((c ++ '/' :: r).take k1) := by
    rw [hhd1, hk1, List.take_append]
    congr 1
  have hsid : (splitOnSeq ['/'] hd1).headD [] = s := by
    rw [htake1, splitOnSeq_headD ['/'] (by decide), strFind_single_at '/' s _ hs]
    simp only [Option.getD_some]
    exact List.take_left s _
  have hshape2 : p ++ 'c' :: '/' :: (s ++ '/' :: (c ++ '/' :: r)) =
      (p ++ ['c', '/']) ++ (s ++ ['/']) ++ (c ++ '/' :: r) := by
    simp
  have hlen2 : (p ++ ['c', '/']).length = p.length + 2 := by simp
  have hsplit2 : splitOnSeq (s ++ ['/']) (p ++ 'c' :: '/' :: (s ++ '/' :: (c ++ '/' :: r))) =
      (p ++ ['c', '/']) :: splitOnSeq (s ++ ['/']) (c ++ '/' :: r) := by
    rw [hshape2]
    apply splitOnSeq_at_marker (s ++ ['/']) (by simp)
    rw [← hshape2, hlen2]
    exact h2
  have hne2 := splitOnSeq_ne_nil (s ++ ['/']) (c ++ '/' :: r)
  obtain ⟨hd2, t2, hcons2⟩ := List.exists_cons_of_ne_nil hne2
  have hget2 : (splitOnSeq (s ++ ['/'])
      (p ++ 'c' :: '/' :: (s ++ '/' :: (c ++ '/' :: r)))).get? 1 = some hd2 := by
    rw [hsplit2, hcons2]
    rfl
  have hhd2 : hd2 = (c ++ '/' :: r).take
      ((strFind (s ++ ['/']) (c ++ '/' :: r)).getD (c ++ '/' :: r).length) := by
    have hx := splitOnSeq_headD (s ++ ['/']) (by simp) (c ++ '/' :: r)
    rw [hcons2] at hx
    simpa using hx
  have hn2 : c.length + 1 ≤ (strFind (s ++ ['/']) (c ++ '/' :: r)).getD
      (c ++ '/' :: r).length := by
    cases hf : strFind (s ++ ['/']) (c ++ '/' :: r) with
    | none =>
      simp only [Option.getD_none, List.length_append, List.length_cons]
      omega
    | some m =>
      simp only [Option.getD_some]
      by_contra hlt
      push_neg at hlt
      have hpre := strFind_isPrefixOf (s ++ ['/']) _ m hf
      have hfalse := no_sess_marker_in_challenge s c r hs hc hsne hsuf m (by omega)
      rw [hfalse] at hpre
      exact absurd hpre (by decide)
  obtain ⟨k2, hk2⟩ : ∃ k2, (strFind (s ++ ['/']) (c ++ '/' :: r)).getD
      (c ++ '/' :: r).length = c.length + (k2 + 1) :=
    ⟨(strFind (s ++ ['/']) (c ++ '/' :: r)).getD (c ++ '/' :: r).length - (c.length + 1),
      by omega⟩
  have htake2 : hd2 = c ++ '/' :: (r.take k2) := by
    rw [hhd2, hk2, List.take_append]
    congr 1
  have hcid : (splitOnSeq ['/'] hd2).headD [] = c := by
    rw [htake2, splitOnSeq_headD ['/'] (by decide), strFind_single_at '/' c _ hc]
    simp only [Option.getD_some]
    exact List.take_left c _
  have hids : parsedIds (p ++ 'c' :: '/' :: (s ++ '/' :: (c ++ '/' :: r))) = some (s, c) := by
    simp only [parsedIds, hget1, hsid, hget2, hcid]
  exact ⟨hids, by simp only [construct_challenge_payload, hids]⟩

/-- Claim C4 witness: a well-formed challenge URL on the real challenge
host parses to exactly its two path segments. -/
theorem challenge_payload_parses_witness :
    parsedIds ("https://challenge.spotify.com/".toList ++ 'c' :: '/' ::
        ("SESS".toList ++ '/' :: ("CHAL".toList ++ '/' :: "rest".toList))) =
      some ("SESS".toList, "CHAL".toList) :=
  (challenge_payload_parses "https://challenge.spotify.com/".toList "SESS".toList
      "CHAL".toList "rest".toList "tok" (by decide) (by decide) (by decide) (by decide)
      (by decide) (by decide) (by decide)).1
